import Mathlib

set_option autoImplicit false

/-
Verification of the frontend core of the LLM-Chatbot repository against its
natural-language specification. The definitions below are shallow embeddings
of the TypeScript sources: React state updates become explicit list-passing,
awaited HTTP calls become an explicit outcome argument of type Except, and
JS Date and uuid values become opaque parameters supplied by the caller.
-/

namespace LLMChatbot

/-! ## Chat context (frontend/src/contexts/ChatContext.tsx) -/

inductive Role where
  | user
  | assistant
deriving DecidableEq, Repr

/-- A chat message as held in the ChatContext state: id (a uuid), role,
text content and timestamp (a JS Date, embedded as Nat milliseconds). -/
structure Message where
  id : String
  role : Role
  content : String
  timestamp : Nat
deriving DecidableEq, Repr

/-- Failure of an awaited api call: the axios promise rejected. The variants
cover the failure modes relevant to the chat flow. -/
inductive ApiError where
  | generationUnavailable
  | timeout
  | httpError (code : Nat)
deriving DecidableEq, Repr

/-- The successful response body of POST /chat/message as read by sendMessage. -/
structure ChatResponse where
  response : String
  session_id : Option String
deriving DecidableEq, Repr

/-- sendMessage of ChatContext.tsx (lines 92-127), restricted to its effect on
the messages state. It first appends the user message
(setMessages (prev) => [...prev, userMessage]), then awaits the POST; on
success it appends the assistant message built from response.data.response;
on failure the catch block logs and rethrows without touching the messages
state, so the already-appended user message stays. The uuids and timestamps
produced inside the function are passed in as parameters. Returns the
messages state after the call completes or throws. -/
def sendMessage (prev : List Message) (content : String)
    (userId assistantId : String) (tUser tAssistant : Nat)
    (outcome : Except ApiError ChatResponse) : List Message :=
  let userMessage : Message := ⟨userId, Role.user, content, tUser⟩
  let afterUser := prev ++ [userMessage]
  match outcome with
  | .ok r => afterUser ++ [⟨assistantId, Role.assistant, r.response, tAssistant⟩]
  | .error _ => afterUser

/-- The JSON body sent by sendMessage to POST /chat/message. The field
use_knowledge_base is the JS expression
selectedDocIds && selectedDocIds.length > 0, whose value is undefined when
selectedDocIds is absent (short-circuit), embedded as an Option Bool with
none for undefined. selected_documents is selectedDocIds || []. -/
structure ChatRequestPayload where
  message : String
  session_id : Option String
  use_knowledge_base : Option Bool
  selected_documents : List String
  stream : Bool
deriving DecidableEq, Repr

/-- The request body built inside sendMessage (ChatContext.tsx lines 103-109). -/
def chatRequestBody (content : String) (sessionId : Option String)
    (selectedDocIds : Option (List String)) : ChatRequestPayload :=
  { message := content
    session_id := sessionId
    use_knowledge_base :=
      match selectedDocIds with
      | none => none
      | some l => some (decide (l.length > 0))
    selected_documents := selectedDocIds.getD []
    stream := false }

/-! ## Document context (frontend/src/contexts/DocumentContext.tsx) -/

/-- A document record as returned by GET /documents/list and held in the
DocumentContext and KnowledgeBase state. -/
structure DocumentRec where
  id : String
  filename : String
  file_type : String
  file_size : Nat
  processed : Bool
  created_at : Nat
deriving DecidableEq, Repr

/-- deleteDocument of DocumentContext.tsx (lines 57-65), restricted to its
effect on the documents state: on success of DELETE /documents/:id it sets
setDocuments (prev) => prev.filter (doc) => doc.id !== documentId; on failure
the catch block logs and rethrows without touching the state. -/
def deleteDocument (docs : List DocumentRec) (documentId : String)
    (outcome : Except ApiError Unit) : List DocumentRec :=
  match outcome with
  | .ok _ => docs.filter (fun doc => doc.id ≠ documentId)
  | .error _ => docs

/-! ## Document upload dropzone (frontend/src/components/DocumentUpload.tsx) -/

/-- A file offered to the dropzone: name, browser MIME type, byte size. -/
structure UploadFile where
  name : String
  mimeType : String
  size : Nat
deriving DecidableEq, Repr

/-- The keys of the accept map passed to useDropzone in DocumentUpload.tsx
(lines 46-53): PDF, DOCX, plain text, Markdown, JPEG and PNG. -/
def acceptedMimeTypes : List String :=
  ["application/pdf",
   "application/vnd.openxmlformats-officedocument.wordprocessingml.document",
   "text/plain",
   "text/markdown",
   "image/jpeg",
   "image/png"]

/-- The extension lists of the accept map, flattened: react-dropzone also
accepts a file whose name ends in one of the configured extensions. -/
def acceptedExtensions : List String :=
  [".pdf", ".docx", ".txt", ".md", ".jpg", ".jpeg", ".png"]

/-- The maxSize option passed to useDropzone (line 54): 10485760 bytes. -/
def maxUploadSize : Nat := 10485760

/-- The react-dropzone accept check under the configured accept map: the file
passes when its MIME type equals one of the keys or its name ends in one of
the listed extensions. -/
def fileTypeAccepted (f : UploadFile) : Bool :=
  f.mimeType ∈ acceptedMimeTypes ||
    acceptedExtensions.any (fun ext => List.isSuffixOf ext.data f.name.data)

/-- The react-dropzone size check under the configured maxSize: the file
passes when its size does not exceed maxUploadSize. -/
def fileSizeAccepted (f : UploadFile) : Bool :=
  f.size ≤ maxUploadSize

/-- The dropzone splits dropped files before onDrop runs: only files passing
both the accept and the size check reach acceptedFiles, and onDrop (which
performs the upload requests) receives exactly those. -/
def dropzoneAcceptedFiles (files : List UploadFile) : List UploadFile :=
  files.filter (fun f => fileTypeAccepted f && fileSizeAccepted f)

/-! ## Chat interface document list (ChatInterface, in KnowledgeBase.tsx) -/

/-- fetchDocuments of the chat interface (KnowledgeBase.tsx lines 544-551):
stores response.data.documents.filter (doc) => doc.processed into the
document-selection state. -/
def chatFetchDocuments (respDocuments : List DocumentRec) : List DocumentRec :=
  respDocuments.filter (fun doc => doc.processed)

/-! ## Knowledge-base search (KnowledgeBase.tsx) -/

/-- One entry of response.data.results as displayed by the search view.
The similarity score is embedded as an integer in hundredths; its value is
irrelevant to the properties proved here. -/
structure SearchResult where
  content : String
  file_type : String
  score : Int
deriving DecidableEq, Repr

/-- Observable outcome of one handleSearch call: the searchResults state
after the call, whether toast.error was called, and whether the informational
no-results toast was shown. -/
structure HandleSearchResult where
  searchResults : List SearchResult
  errorToastShown : Bool
  noResultsToastShown : Bool
deriving DecidableEq, Repr

/-- The JS guard !searchQuery.trim() at the top of handleSearch (line 108):
the trimmed string is falsy exactly when the query consists entirely of
whitespace (or is empty). -/
def queryBlank (query : String) : Bool :=
  query.data.all (fun c => c.isWhitespace)

/-- handleSearch of KnowledgeBase.tsx (lines 106-130): returns early on a
blank query; otherwise awaits the search request; on success it stores the
result list (empty or not) and shows the informational toast when it is
empty; only the catch branch, reached when the request rejects, calls
toast.error, and it leaves searchResults untouched. -/
def handleSearch (prevResults : List SearchResult) (query : String)
    (outcome : Except ApiError (List SearchResult)) : HandleSearchResult :=
  if queryBlank query then
    ⟨prevResults, false, false⟩
  else
    match outcome with
    | .ok results => ⟨results, false, results.isEmpty⟩
    | .error _ => ⟨prevResults, true, false⟩

/-! ## EventEmitter (frontend/src/utils/eventEmitter.ts) -/

/-- Listeners are embedded by identity, matching the reference comparison
l !== listener used by off; the functions themselves live outside the
emitter. -/
abbrev ListenerId := Nat

/-- The EventEmitter class of eventEmitter.ts: its private events object,
embedded as an association list from event name to the array of registered
listeners. A name missing from the list models the events object having no
entry for that event (this.events[event] undefined). -/
structure EventEmitter where
  events : List (String × List ListenerId)
deriving DecidableEq, Repr

/-- A freshly constructed emitter, such as the module-level documentEvents. -/
def EventEmitter.new : EventEmitter := ⟨[]⟩

/-- Helper for on: this.events[event] = [] when absent, then push. -/
def onAux : List (String × List ListenerId) → String → ListenerId →
    List (String × List ListenerId)
  | [], event, l => [(event, [l])]
  | (k, ls) :: rest, event, l =>
    if k = event then (k, ls ++ [l]) :: rest
    else (k, ls) :: onAux rest event l

/-- on of eventEmitter.ts (lines 4-9): creates the listener array if absent,
then pushes the listener at its end. -/
def EventEmitter.on (em : EventEmitter) (event : String) (l : ListenerId) :
    EventEmitter :=
  ⟨onAux em.events event l⟩

/-- Helper for off: return unchanged when the event has no entry, else
filter out every occurrence of the listener. -/
def offAux : List (String × List ListenerId) → String → ListenerId →
    List (String × List ListenerId)
  | [], _, _ => []
  | (k, ls) :: rest, event, l =>
    if k = event then (k, ls.filter (fun x => x ≠ l)) :: rest
    else (k, ls) :: offAux rest event l

/-- off of eventEmitter.ts (lines 11-14). -/
def EventEmitter.off (em : EventEmitter) (event : String) (l : ListenerId) :
    EventEmitter :=
  ⟨offAux em.events event l⟩

/-- Lookup of this.events[event]: none models undefined. -/
def getEntry : List (String × List ListenerId) → String →
    Option (List ListenerId)
  | [], _ => none
  | (k, ls) :: rest, event => if k = event then some ls else getEntry rest event

/-- emit of eventEmitter.ts (lines 16-19): returns without invoking anything
when the event has no entry; otherwise the forEach invokes each registered
listener in array order. The returned list is the sequence of listeners
invoked, in order. -/
def EventEmitter.emit (em : EventEmitter) (event : String) : List ListenerId :=
  match getEntry em.events event with
  | none => []
  | some ls => ls

/-! ## Document events wiring (eventEmitter.ts, DocumentUpload.tsx,
KnowledgeBase.tsx) -/

/-- The DOCUMENT_EVENTS constants of eventEmitter.ts (lines 24-28). -/
def DOCUMENT_EVENTS.UPLOADED : String := "document:uploaded"

def DOCUMENT_EVENTS.DELETED : String := "document:deleted"

def DOCUMENT_EVENTS.PROCESSED : String := "document:processed"

/-- Whether an awaited api call resolved rather than rejected. -/
def succeeded {α : Type} : Except ApiError α → Bool
  | .ok _ => true
  | .error _ => false

/-- onDrop of DocumentUpload.tsx (lines 20-42), restricted to the events it
emits on documentEvents: the loop uploads each accepted file in turn and
emits DOCUMENT_EVENTS.UPLOADED after each successful upload; a failed upload
only shows an error toast and emits nothing. Each dropped file is paired
with the outcome of its upload request; the result is the emitted event
names in order. -/
def onDropEmittedEvents (uploads : List (UploadFile × Except ApiError Unit)) :
    List String :=
  uploads.filterMap (fun u =>
    if succeeded u.2 then some DOCUMENT_EVENTS.UPLOADED else none)

/-- handleDelete of DocumentUpload.tsx (lines 57-69), restricted to the
events it emits: DOCUMENT_EVENTS.DELETED after a successful delete, nothing
when the delete request rejects. -/
def handleDeleteEmittedEvents (outcome : Except ApiError Unit) : List String :=
  if succeeded outcome then [DOCUMENT_EVENTS.DELETED] else []

/-- The refetch actions the knowledge-base view can perform. -/
inductive KBAction where
  | fetchDocumentsAct
  | fetchStatsAct
deriving DecidableEq, Repr

/-- handleDocumentChange of KnowledgeBase.tsx (lines 70-73): refetches the
document list and the statistics, in that order. -/
def handleDocumentChange : List KBAction :=
  [KBAction.fetchDocumentsAct, KBAction.fetchStatsAct]

/-- The mount effect of KnowledgeBase.tsx (lines 75-76): registers the
handleDocumentChange handler for the UPLOADED and the DELETED event on the
shared documentEvents emitter. -/
def knowledgeBaseMount (em : EventEmitter) (handler : ListenerId) :
    EventEmitter :=
  (em.on DOCUMENT_EVENTS.UPLOADED handler).on DOCUMENT_EVENTS.DELETED handler

/-- The actions run when an event is emitted on an emitter in which handler
is the registered knowledge-base handler: each invocation of handler runs
handleDocumentChange, other listeners contribute no KBAction. -/
def emittedActions (em : EventEmitter) (event : String)
    (handler : ListenerId) : List KBAction :=
  (em.emit event).flatMap (fun l =>
    if l = handler then handleDocumentChange else [])

/-! ## Ingestion pipeline (backend; modelled from the spec) -/

/-- One entry of the VectorIndex per the data model of the spec: the owning
document, the fragment sequence index within it, and the embedding vector. -/
structure IndexEntry where
  document_id : String
  chunk_index : Nat
  vector : List Int
deriving DecidableEq, Repr

abbrev VectorIndex := List IndexEntry

/-- Modelled from the spec: VectorIndex.delete of §4.3 — the backend
VectorIndex implementation is not among the sources. Removes all entries
belonging to the document; idempotent, deleting an absent document succeeds
silently. -/
def vectorDelete (idx : VectorIndex) (documentId : String) : VectorIndex :=
  idx.filter (fun entry => entry.document_id ≠ documentId)

/-- The observable per-document processing states: pending, and the two
terminal states of the §4.4 state machine. The intermediate states
(extracting, chunking, embedding, indexing) are transient within one
ingestDocument call and not observable in its result. -/
inductive IngestStatus where
  | pending
  | processed
  | failed
deriving DecidableEq, Repr

/-- Modelled from the spec: the embedding stage of §4.2/§4.4 embeds the
chunk batch; it fails (EmbeddingUnavailable after retry exhaustion) when
embedding any chunk fails. -/
def embedChunks (embedOf : String → Except Unit (List Int)) :
    List String → Except Unit (List (List Int))
  | [] => Except.ok []
  | c :: rest =>
    match embedOf c, embedChunks embedOf rest with
    | Except.ok v, Except.ok vs => Except.ok (v :: vs)
    | Except.error u, _ => Except.error u
    | _, Except.error u => Except.error u

/-- Modelled from the spec: the indexing stage of §4.4 upserts the entries
one by one; the k-th write fails when indexWriteOk k is false, aborting the
stage and leaving the partially written index to be rolled back by the
pipeline. Returns whether all writes succeeded, with the resulting index. -/
def writeEntries (idx : VectorIndex) (entries : List IndexEntry)
    (indexWriteOk : Nat → Bool) (k : Nat) : Bool × VectorIndex :=
  match entries with
  | [] => (true, idx)
  | e :: rest =>
    if indexWriteOk k then writeEntries (idx ++ [e]) rest indexWriteOk (k + 1)
    else (false, idx)

/-- Modelled from the spec: the per-document IngestionPipeline of §4.4 — the
backend pipeline is not among the sources. Stages run strictly in sequence.
extraction carries the extracted text or an extraction failure; chunksOf is
the (deterministic) Chunker; embedOf gives each chunk embedding or an
embedding failure after retry exhaustion; indexWriteOk drives the indexing
stage. Per §4.4, re-ingestion of the same identity first deletes prior
entries, and a failure at any stage drives the document to failed and rolls
back partially written entries for it. Returns the terminal status and the
resulting VectorIndex. -/
def ingestDocument (idx : VectorIndex) (documentId : String)
    (extraction : Except String String)
    (chunksOf : String → List String)
    (embedOf : String → Except Unit (List Int))
    (indexWriteOk : Nat → Bool) : IngestStatus × VectorIndex :=
  let idx0 := vectorDelete idx documentId
  match extraction with
  | .error _ => (IngestStatus.failed, vectorDelete idx0 documentId)
  | .ok text =>
    match embedChunks embedOf (chunksOf text) with
    | .error _ => (IngestStatus.failed, vectorDelete idx0 documentId)
    | .ok vectors =>
      let entries := vectors.enum.map (fun p =>
        IndexEntry.mk documentId p.1 p.2)
      match writeEntries idx0 entries indexWriteOk 0 with
      | (true, idx1) => (IngestStatus.processed, idx1)
      | (false, idx1) => (IngestStatus.failed, vectorDelete idx1 documentId)

end LLMChatbot

namespace LLMChatbot

theorem getEntry_onAux_same (evs : List (String × List ListenerId))
    (event : String) (l : ListenerId) :
    getEntry (onAux evs event l) event =
      some ((getEntry evs event).getD [] ++ [l]) := by
  induction evs with
  | nil => simp [onAux, getEntry]
  | cons p rest ih =>
      obtain ⟨k, ls⟩ := p
      by_cases hk : k = event
      · simp [onAux, getEntry, hk]
      · simp [onAux, getEntry, hk, ih]

theorem getEntry_onAux_other (evs : List (String × List ListenerId))
    (event other : String) (l : ListenerId) (hne : other ≠ event) :
    getEntry (onAux evs event l) other = getEntry evs other := by
  induction evs with
  | nil => simp [onAux, getEntry, Ne.symm hne]
  | cons p rest ih =>
      obtain ⟨k, ls⟩ := p
      by_cases hk : k = event
      · subst hk
        simp [onAux, getEntry, Ne.symm hne]
      · by_cases hko : k = other
        · subst hko
          simp [onAux, getEntry, hk]
        · simp [onAux, getEntry, hk, hko, ih]

theorem getEntry_offAux_same (evs : List (String × List ListenerId))
    (event : String) (l : ListenerId) :
    getEntry (offAux evs event l) event =
      (getEntry evs event).map (fun ls => ls.filter (fun x => x ≠ l)) := by
  induction evs with
  | nil => simp [offAux, getEntry]
  | cons p rest ih =>
      obtain ⟨k, ls⟩ := p
      by_cases hk : k = event
      · simp [offAux, getEntry, hk]
      · simp [offAux, getEntry, hk, ih]

theorem emit_on_same (em : EventEmitter) (event : String) (l : ListenerId) :
    (em.on event l).emit event = em.emit event ++ [l] := by
  simp only [EventEmitter.emit, EventEmitter.on, getEntry_onAux_same]
  cases h : getEntry em.events event <;> simp [h]

theorem emit_on_other (em : EventEmitter) (event other : String)
    (l : ListenerId) (hne : other ≠ event) :
    (em.on event l).emit other = em.emit other := by
  simp only [EventEmitter.emit, EventEmitter.on,
    getEntry_onAux_other em.events event other l hne]

theorem emit_off_same (em : EventEmitter) (event : String) (l : ListenerId) :
    (em.off event l).emit event = (em.emit event).filter (fun x => x ≠ l) := by
  simp only [EventEmitter.emit, EventEmitter.off, getEntry_offAux_same]
  cases h : getEntry em.events event <;> simp [h]

/-- C8: off removes every registration of the listener for the event
(leaving the other listeners with their occurrences and order), so a
subsequent emit never invokes it; emit on an event with no registered
listeners invokes nothing; and emit invokes the registered listeners in
registration order, once per registration: registering a listener with on
makes emit invoke it exactly once more, after the previously registered
ones. -/
theorem eventEmitter_spec (em : EventEmitter) (event : String)
    (l : ListenerId) :
    (em.off event l).emit event = (em.emit event).filter (fun x => x ≠ l) ∧
    l ∉ (em.off event l).emit event ∧
    EventEmitter.new.emit event = [] ∧
    (em.on event l).emit event = em.emit event ++ [l] := by
  refine ⟨emit_off_same em event l, ?_, rfl, emit_on_same em event l⟩
  rw [emit_off_same]
  intro hmem
  have h2 := (List.mem_filter.mp hmem).2
  simp at h2

/-- C7: document-change notifications flow through the shared documentEvents
emitter: an onDrop batch emits one UPLOADED event per successful upload and
nothing for failed ones, a successful delete emits DELETED and a failed one
nothing, and once the knowledge-base view has registered its handler for
both events, emitting either one invokes the handler, whose run refetches
the document list and the statistics. -/
theorem documentEvents_flow
    (uploads : List (UploadFile × Except ApiError Unit))
    (em : EventEmitter) (handler : ListenerId) (e : ApiError) :
    onDropEmittedEvents uploads =
      (uploads.filter (fun u => succeeded u.2)).map
        (fun _ => DOCUMENT_EVENTS.UPLOADED) ∧
    handleDeleteEmittedEvents (.ok ()) = [DOCUMENT_EVENTS.DELETED] ∧
    handleDeleteEmittedEvents (.error e) = [] ∧
    handler ∈ (knowledgeBaseMount em handler).emit DOCUMENT_EVENTS.UPLOADED ∧
    handler ∈ (knowledgeBaseMount em handler).emit DOCUMENT_EVENTS.DELETED ∧
    KBAction.fetchDocumentsAct ∈ emittedActions (knowledgeBaseMount em handler)
      DOCUMENT_EVENTS.UPLOADED handler ∧
    KBAction.fetchStatsAct ∈ emittedActions (knowledgeBaseMount em handler)
      DOCUMENT_EVENTS.UPLOADED handler ∧
    KBAction.fetchDocumentsAct ∈ emittedActions (knowledgeBaseMount em handler)
      DOCUMENT_EVENTS.DELETED handler ∧
    KBAction.fetchStatsAct ∈ emittedActions (knowledgeBaseMount em handler)
      DOCUMENT_EVENTS.DELETED handler := by
  have hUP : (knowledgeBaseMount em handler).emit DOCUMENT_EVENTS.UPLOADED =
      em.emit DOCUMENT_EVENTS.UPLOADED ++ [handler] := by
    unfold knowledgeBaseMount
    rw [emit_on_other _ _ _ _ (by decide), emit_on_same]
  have hDEL : (knowledgeBaseMount em handler).emit DOCUMENT_EVENTS.DELETED =
      (em.on DOCUMENT_EVENTS.UPLOADED handler).emit DOCUMENT_EVENTS.DELETED ++
        [handler] := by
    unfold knowledgeBaseMount
    rw [emit_on_same]
  have hmemUP : handler ∈
      (knowledgeBaseMount em handler).emit DOCUMENT_EVENTS.UPLOADED := by
    rw [hUP]; simp
  have hmemDEL : handler ∈
      (knowledgeBaseMount em handler).emit DOCUMENT_EVENTS.DELETED := by
    rw [hDEL]; simp
  have hact : ∀ ev : String,
      handler ∈ (knowledgeBaseMount em handler).emit ev →
      KBAction.fetchDocumentsAct ∈
        emittedActions (knowledgeBaseMount em handler) ev handler ∧
      KBAction.fetchStatsAct ∈
        emittedActions (knowledgeBaseMount em handler) ev handler := by
    intro ev hmem
    constructor <;>
    · unfold emittedActions
      refine List.mem_flatMap.mpr ⟨handler, hmem, ?_⟩
      simp [handleDocumentChange]
  have hdrop : onDropEmittedEvents uploads =
      (uploads.filter (fun u => succeeded u.2)).map
        (fun _ => DOCUMENT_EVENTS.UPLOADED) := by
    induction uploads with
    | nil => rfl
    | cons u rest ih =>
        cases hs : succeeded u.2 <;>
          simp [onDropEmittedEvents, List.filterMap_cons, List.filter_cons,
            hs] at ih ⊢ <;>
          exact ih
  exact ⟨hdrop, rfl, rfl, hmemUP, hmemDEL,
    (hact _ hmemUP).1, (hact _ hmemUP).2, (hact _ hmemDEL).1,
    (hact _ hmemDEL).2⟩

/-- C2: a failed ingestion never leaves orphaned entries: whenever
ingestDocument reports the failed terminal status, the resulting VectorIndex
contains no entry belonging to that document (partially written entries are
rolled back, per the spec contract). -/
theorem ingestDocument_failed_no_orphans (idx : VectorIndex)
    (documentId : String) (extraction : Except String String)
    (chunksOf : String → List String)
    (embedOf : String → Except Unit (List Int)) (indexWriteOk : Nat → Bool)
    (hfail :
      (ingestDocument idx documentId extraction chunksOf
          embedOf indexWriteOk).1 = IngestStatus.failed) :
    ∀ entry ∈ (ingestDocument idx documentId extraction chunksOf
        embedOf indexWriteOk).2,
      entry.document_id ≠ documentId := by
  intro entry hentry
  cases hex : extraction with
  | error msg =>
      rw [hex] at hentry
      simp [ingestDocument, vectorDelete, List.mem_filter] at hentry
      exact hentry.2
  | ok text =>
      rw [hex] at hentry hfail
      cases hemb : embedChunks embedOf (chunksOf text) with
      | error u =>
          simp [ingestDocument, vectorDelete, List.mem_filter, hemb] at hentry
          exact hentry.2
      | ok vectors =>
          cases hw : writeEntries (vectorDelete idx documentId)
              (vectors.enum.map (fun p => IndexEntry.mk documentId p.1 p.2))
              indexWriteOk 0 with
          | mk b idx1 =>
              cases b with
              | true =>
                  simp only [ingestDocument, hemb, hw] at hfail
                  exact IngestStatus.noConfusion hfail
              | false =>
                  simp only [ingestDocument, hemb, hw] at hentry
                  simp [vectorDelete, List.mem_filter] at hentry
                  exact hentry.2

/-- Concrete instance of the C2 theorem: the second index write fails, the
document ends in the failed state, and the final index holds no entry of it
(the unrelated document keeps its entry). -/
theorem ingestDocument_failed_no_orphans_witness :
    ((ingestDocument [IndexEntry.mk "x" 0 [1]] "d" (Except.ok "text")
        (fun _ => ["c1", "c2"]) (fun _ => Except.ok [1])
        (fun k => decide (k = 0))).1 = IngestStatus.failed) ∧
    ∀ entry ∈ (ingestDocument [IndexEntry.mk "x" 0 [1]] "d" (Except.ok "text")
        (fun _ => ["c1", "c2"]) (fun _ => Except.ok [1])
        (fun k => decide (k = 0))).2,
      entry.document_id ≠ "d" :=
  ⟨rfl, ingestDocument_failed_no_orphans _ _ _ _ _ _ rfl⟩

end LLMChatbot

namespace LLMChatbot

/-- C1: the claim states that when the chat request fails the message list is
rolled back to its pre-request state, with no user message added. The code
appends the user message before the request and its catch block never removes
it, so the claim is false: from an empty list, a timed-out request leaves the
user message in the list. -/
theorem sendMessage_failure_not_rolled_back :
    sendMessage [] "hi" "u1" "a1" 0 0 (.error .timeout) ≠ [] := by
  decide

/-- C1 (amended): when the chat request fails, no assistant message is
appended; the message list equals the pre-request list with exactly the user
message appended (the user message itself is not rolled back). -/
theorem sendMessage_failure_appends_only_user (prev : List Message)
    (content userId assistantId : String) (tUser tAssistant : Nat)
    (e : ApiError) :
    sendMessage prev content userId assistantId tUser tAssistant (.error e) =
      prev ++ [⟨userId, Role.user, content, tUser⟩] := by
  rfl

/-- C4: sendMessage only appends at the end: whatever the outcome of the
request, the old message list is an unchanged prefix of the new one, so
existing messages are never edited, removed or reordered. -/
theorem sendMessage_extends_list (prev : List Message)
    (content userId assistantId : String) (tUser tAssistant : Nat)
    (outcome : Except ApiError ChatResponse) :
    ∃ appended : List Message,
      sendMessage prev content userId assistantId tUser tAssistant outcome =
        prev ++ appended := by
  cases outcome with
  | ok r =>
      exact ⟨[⟨userId, Role.user, content, tUser⟩,
              ⟨assistantId, Role.assistant, r.response, tAssistant⟩], by
        simp [sendMessage]⟩
  | error e =>
      exact ⟨[⟨userId, Role.user, content, tUser⟩], rfl⟩

/-- C9: the chat request body uses the knowledge base exactly when a
non-empty document selection was passed: use_knowledge_base is true iff
selectedDocIds is provided and non-empty, and selected_documents is
selectedDocIds, defaulting to the empty list when absent. -/
theorem chatRequestBody_knowledge_base_iff (content : String)
    (sessionId : Option String) (selectedDocIds : Option (List String)) :
    ((chatRequestBody content sessionId selectedDocIds).use_knowledge_base =
        some true ↔ ∃ l, selectedDocIds = some l ∧ l ≠ []) ∧
    (chatRequestBody content sessionId selectedDocIds).selected_documents =
      selectedDocIds.getD [] := by
  refine ⟨?_, rfl⟩
  cases selectedDocIds with
  | none => simp [chatRequestBody]
  | some l =>
      simp [chatRequestBody]
      cases l <;> simp

/-- C3: a dropped file reaches the upload path exactly when it is in the
dropped batch, its type passes the configured accept check (PDF, DOCX, plain
text, Markdown, JPEG, PNG) and its size is at most 10485760 bytes; an
oversize or disallowed-type file is filtered out before any upload request
is sent. -/
theorem dropzoneAcceptedFiles_spec (files : List UploadFile) (f : UploadFile) :
    f ∈ dropzoneAcceptedFiles files ↔
      f ∈ files ∧ fileTypeAccepted f = true ∧ f.size ≤ 10485760 := by
  simp [dropzoneAcceptedFiles, fileSizeAccepted, maxUploadSize,
    List.mem_filter, and_assoc]

/-- C5: a successful search with an empty result list is not an error: for a
non-blank query, handleSearch stores the empty list, shows the informational
no-results toast and does not call toast.error; toast.error is reached only
when the search request itself rejects. -/
theorem handleSearch_empty_results_not_error (prevResults : List SearchResult)
    (query : String) (h : queryBlank query = false) :
    handleSearch prevResults query (.ok []) = ⟨[], false, true⟩ ∧
    ∀ outcome : Except ApiError (List SearchResult),
      (handleSearch prevResults query outcome).errorToastShown = true →
        ∃ e, outcome = .error e := by
  constructor
  · simp [handleSearch, h]
  · intro outcome hout
    cases outcome with
    | ok results =>
        exfalso
        simp [handleSearch, h] at hout
    | error e => exact ⟨e, rfl⟩

/-- Concrete instance of the C5 theorem at the query "hello" with an empty
successful result. -/
theorem handleSearch_empty_results_not_error_witness :
    (queryBlank "hello" = false) ∧
    handleSearch [] "hello" (.ok []) = ⟨[], false, true⟩ :=
  ⟨by decide, (handleSearch_empty_results_not_error [] "hello" (by decide)).1⟩

/-- C6: a successful deleteDocument removes exactly the entries whose id
equals the deleted id (their count drops to zero, every other record keeps
its count) and keeps the remaining records in their original order (the
result is a sublist of the previous list); a failed delete leaves the
documents state unchanged. -/
theorem deleteDocument_spec (docs : List DocumentRec) (documentId : String)
    (d : DocumentRec) (e : ApiError) :
    (deleteDocument docs documentId (.ok ())).Sublist docs ∧
    ((deleteDocument docs documentId (.ok ())).count d =
      if d.id = documentId then 0 else docs.count d) ∧
    deleteDocument docs documentId (.error e) = docs := by
  refine ⟨List.filter_sublist docs, ?_, rfl⟩
  simp only [deleteDocument]
  by_cases hid : d.id = documentId
  · rw [if_pos hid, List.count_eq_zero]
    intro hmem
    have h2 := (List.mem_filter.mp hmem).2
    simp [hid] at h2
  · rw [if_neg hid]
    exact List.count_filter (by simpa using hid)

/-- C10: the chat interface stores a fetched document into its selection
list exactly when the backend returned it and its processed flag is true, so
an unprocessed document never appears among the selectable context
documents. -/
theorem chatFetchDocuments_spec (respDocuments : List DocumentRec)
    (d : DocumentRec) :
    d ∈ chatFetchDocuments respDocuments ↔
      d ∈ respDocuments ∧ d.processed = true := by
  simp [chatFetchDocuments, List.mem_filter]

end LLMChatbot
